import Mathlib

set_option maxHeartbeats 1000000

/-!
Shallow embedding of the value core of `src/main.rs` (the `looa` prototype):
the runtime type tag, the erased `Value` handle, and its operations
(equality, total ordering, hashing, truthiness, numeric coercion, table
indexing, arithmetic).

Modelling conventions:
* A Rust panic (`unimplemented!()`, `.expect(..)`) is modelled by `none` in an
  `Option`-returning function; `some r` means the Rust code returns `r`.
* The `f32` payload type is modelled by `LuaNumber` below: NaN, the two
  infinities, the negative zero, and finite values carried as exact rationals.
  Arithmetic and parsing are exact (no rounding); every concrete input used in
  a theorem below has an exactly representable result, so the model and `f32`
  agree at those points.
* Reference-counted sharing is irrelevant to the verified claims (payloads are
  immutable), so a handle is modelled by its tag and payload alone.
-/

/-- Rust `enum Type` (src/main.rs:14-31), constructors in declaration order;
`derive(Ord)` in Rust orders by declaration, as Lean's `deriving Ord` does. -/
inductive Ty where
  | Nil
  | Boolean
  | Number
  | String
  | Function
  | Userdata
  | Thread
  | Table
deriving DecidableEq, Ord, Repr

/-- Declaration index of a tag (the Rust discriminant). -/
def Ty.code : Ty → Nat
  | .Nil => 0
  | .Boolean => 1
  | .Number => 2
  | .String => 3
  | .Function => 4
  | .Userdata => 5
  | .Thread => 6
  | .Table => 7

/-- Model of the Rust `f32` payload (`LuaNumber`): NaN, infinities, negative
zero, and finite values as exact rationals (`fin 0` is the positive zero). -/
inductive LuaNumber where
  | nan
  | inf
  | negInf
  | negZero
  | fin (q : ℚ)
deriving DecidableEq, Repr

namespace LuaNumber

/-- IEEE-754 `==` on `f32` (Rust `PartialEq for f32`): NaN is unequal to
everything including itself; `-0.0 == 0.0`; otherwise equality of values. -/
def ieeeEq : LuaNumber → LuaNumber → Bool
  | .nan, _ => false
  | _, .nan => false
  | .inf, .inf => true
  | .negInf, .negInf => true
  | .negZero, .negZero => true
  | .negZero, .fin q => decide (q = 0)
  | .fin q, .negZero => decide (q = 0)
  | .fin a, .fin b => decide (a = b)
  | _, _ => false

/-- Rust `f32::partial_cmp`: `none` iff an operand is NaN, otherwise the
IEEE order (`-inf` below all finite values, `inf` above, `-0.0 = 0.0`). -/
def fcmp : LuaNumber → LuaNumber → Option Ordering
  | .nan, _ => none
  | _, .nan => none
  | .negInf, .negInf => some .eq
  | .negInf, _ => some .lt
  | .inf, .inf => some .eq
  | _, .inf => some .lt
  | .inf, _ => some .gt
  | _, .negInf => some .gt
  | .negZero, .negZero => some .eq
  | .negZero, .fin q => some (compare (0 : ℚ) q)
  | .fin q, .negZero => some (compare q (0 : ℚ))
  | .fin a, .fin b => some (compare a b)

/-- IEEE `f32` addition (Rust `f32::add`), exact on finite values. -/
def add : LuaNumber → LuaNumber → LuaNumber
  | .nan, _ => .nan
  | _, .nan => .nan
  | .inf, .negInf => .nan
  | .negInf, .inf => .nan
  | .inf, _ => .inf
  | _, .inf => .inf
  | .negInf, _ => .negInf
  | _, .negInf => .negInf
  | .negZero, .negZero => .negZero
  | .negZero, .fin q => .fin q
  | .fin q, .negZero => .fin q
  | .fin a, .fin b => .fin (a + b)

/-- IEEE `f32` division (Rust `f32::div`), exact on finite values; used only
to state what the spec's division claim demands, since the source's `Div`
impl never calls it. -/
def fdiv : LuaNumber → LuaNumber → LuaNumber
  | .nan, _ => .nan
  | _, .nan => .nan
  | .inf, .inf => .nan
  | .inf, .negInf => .nan
  | .negInf, .inf => .nan
  | .negInf, .negInf => .nan
  | .inf, .negZero => .negInf
  | .inf, _ => .inf
  | .negInf, .negZero => .inf
  | .negInf, _ => .negInf
  | .negZero, .inf => .negZero
  | .negZero, .negInf => .negZero
  | .fin _, .inf => .fin 0
  | .fin _, .negInf => .fin 0
  | .negZero, .negZero => .nan
  | .negZero, .fin q => if q < 0 then .fin 0 else .negZero
  | .fin q, .negZero => if q = 0 then .nan else if q < 0 then .inf else .negInf
  | .fin a, .fin b =>
    if b = 0 then (if a = 0 then .nan else if a < 0 then .negInf else .inf)
    else .fin (a / b)

/-- The 32-bit pattern of the payload, as hashed by `impl Hash for Value`
(`&*(.. as *const f32 as *const i32)`). Finite nonzero values are encoded
injectively; only distinctness of patterns matters to the development, and
the one fact it relies on is the real one: `0.0` and `-0.0` have the
distinct patterns `0x00000000` and `0x80000000`. -/
def bits : LuaNumber → Nat
  | .nan => 0x7FC00000
  | .inf => 0x7F800000
  | .negInf => 0xFF800000
  | .negZero => 0x80000000
  | .fin q =>
    if q = 0 then 0
    else 0x100000000 + Nat.pair (Nat.pair q.num.natAbs (if q.num < 0 then 1 else 0)) q.den

/-- Semantic value of a non-NaN number in the order `WithBot (WithTop ℚ)`:
`-inf` is `⊥`, `inf` is `⊤`, both zeros are `0`. (NaN is mapped to `⊥` but
every use excludes it by hypothesis.) -/
def toVal : LuaNumber → WithBot (WithTop ℚ)
  | .nan => ⊥
  | .negInf => ⊥
  | .inf => (⊤ : WithTop ℚ)
  | .negZero => ((0 : ℚ) : WithTop ℚ)
  | .fin q => ((q : ℚ) : WithTop ℚ)

end LuaNumber

mutual
/-- The erased handle (Rust `struct Value`): one constructor per payload type
that implements `ConvertValue` (src/main.rs:85-102); `Function` and `Thread`
tags have no constructor and are therefore not constructible, exactly as in
the source. Byte strings are byte lists; the opaque `Box<Any>` userdata
payload is modelled by an opaque identity. -/
inductive Value where
  | nil
  | boolean (b : Bool)
  | num (n : LuaNumber)
  | str (s : List Nat)
  | userdata (id : Nat)
  | table (t : TableData)

/-- The `BTreeMap<Value, Value>` payload as a sequence of key/value entries
(in tree order for maps built by the runtime). -/
inductive TableData where
  | nil
  | cons (k v : Value) (rest : TableData)
end

deriving instance DecidableEq for Value, TableData

/-- Entries of a table payload as a plain list, used to state lookup
properties against the list library's own search. -/
def TableData.toList : TableData → List (Value × Value)
  | .nil => []
  | .cons k v rest => (k, v) :: rest.toList

namespace Value

/-- `Value::type_of` (src/main.rs:129-131): the stored tag; on this model the
tag is determined by the constructor, as the construction invariant states. -/
def type_of : Value → Ty
  | .nil => .Nil
  | .boolean _ => .Boolean
  | .num _ => .Number
  | .str _ => .String
  | .userdata _ => .Userdata
  | .table _ => .Table

/-- `Value::is_index` (src/main.rs:132-140): matches on `type_of`, which on
this model is the constructor. The `Number` arm is the source's
`LuaNumber::from_value_raw(self) == &LUA_NAN`: an IEEE `==` against NaN. -/
def is_index : Value → Bool
  | .nil => false
  | .num n => LuaNumber.ieeeEq n .nan
  | _ => true

/-- `Value::to_bool` (src/main.rs:141-149). -/
def to_bool : Value → Bool
  | .nil => false
  | .boolean b => b
  | _ => true

end Value

/-! Model of Rust's `str::parse::<f32>` (`f32: FromStr`), used by
`Value::as_number` on the string tag. Accepted inputs: an optional sign,
then case-insensitively `inf`, `infinity` or `nan`, or a decimal
significand (`Digits '.'? Digits? | '.' Digits`) with an optional
`(e|E) Sign? Digits` exponent; nothing may trail. The numeric value is exact
(no rounding to binary), and `-0` parses to the negative zero. Bytes are
interpreted as ASCII, matching `from_utf8_unchecked` on the byte string. -/

/-- ASCII decimal digit test. -/
def isDigit (b : Nat) : Bool := 48 ≤ b && b ≤ 57

/-- Value of an ASCII digit string, most significant first. -/
def digitsToNat (ds : List Nat) : Nat :=
  ds.foldl (fun acc d => acc * 10 + (d - 48)) 0

/-- Lower-case an ASCII byte. -/
def asciiLower (b : Nat) : Nat := if 65 ≤ b && b ≤ 90 then b + 32 else b

/-- Strip one optional leading sign; `true` means negative. -/
def readSign : List Nat → Bool × List Nat
  | 43 :: rest => (false, rest)
  | 45 :: rest => (true, rest)
  | s => (false, s)

/-- Parse the decimal significand: its exact rational value and the rest. -/
def readSignificand (s : List Nat) : Option (ℚ × List Nat) :=
  let d1 := s.takeWhile isDigit
  let r1 := s.dropWhile isDigit
  match r1 with
  | 46 :: r2 =>
    let d2 := r2.takeWhile isDigit
    let r3 := r2.dropWhile isDigit
    if d1.isEmpty && d2.isEmpty then none
    else some ((digitsToNat d1 : ℚ) + (digitsToNat d2 : ℚ) / (10 : ℚ) ^ d2.length, r3)
  | _ => if d1.isEmpty then none else some ((digitsToNat d1 : ℚ), r1)

/-- Parse the optional exponent part, which must consume the whole rest. -/
def readExponent : List Nat → Option ℤ
  | [] => some 0
  | c :: rest =>
    if c = 101 ∨ c = 69 then
      let (eneg, r) := readSign rest
      let ds := r.takeWhile isDigit
      let r2 := r.dropWhile isDigit
      if ds.isEmpty || !r2.isEmpty then none
      else some (if eneg then -(digitsToNat ds : ℤ) else (digitsToNat ds : ℤ))
    else none

/-- `str::parse::<f32>` on the byte content: `none` models `Err`. -/
def parseLuaNumber (s : List Nat) : Option LuaNumber :=
  let (neg, rest) := readSign s
  let low := rest.map asciiLower
  if low = [105, 110, 102] ∨ low = [105, 110, 102, 105, 110, 105, 116, 121] then
    some (if neg then .negInf else .inf)
  else if low = [110, 97, 110] then
    some .nan
  else
    match readSignificand rest with
    | none => none
    | some (q, r) =>
      match readExponent r with
      | none => none
      | some e =>
        let v := q * (10 : ℚ) ^ e
        some (if neg then (if v = 0 then .negZero else .fin (-v)) else .fin v)

namespace Value

/-- `Value::as_number` (src/main.rs:155-168): the number payload directly;
strings are parsed with `parse().unwrap_or(LUA_NAN)`; every other tag
coerces to NaN. -/
def as_number : Value → LuaNumber
  | .num n => n
  | .str s => (parseLuaNumber s).getD .nan
  | _ => .nan

/-- `impl PartialEq for Value` (src/main.rs:269-287): mismatched tags are
unequal; nil, boolean and number payloads compare by their own equality;
every other same-tag pair hits `unimplemented!()`, modelled as `none`. -/
def beq (a b : Value) : Option Bool :=
  if a.type_of ≠ b.type_of then some false
  else match a, b with
    | .nil, .nil => some true
    | .boolean p, .boolean q => some (p == q)
    | .num x, .num y => some (LuaNumber.ieeeEq x y)
    | _, _ => none

/-- `impl Ord for Value` (src/main.rs:289-310): mismatched tags compare by
tag order; nil panics never, booleans by `Ord`, numbers by
`partial_cmp(..).expect(..)` (`none` models the panic on NaN); every other
same-tag pair hits `unimplemented!()`, modelled as `none`. -/
def cmp (a b : Value) : Option Ordering :=
  if a.type_of ≠ b.type_of then some (compare a.type_of b.type_of)
  else match a, b with
    | .nil, .nil => some .eq
    | .boolean p, .boolean q => some (compare p q)
    | .num x, .num y => LuaNumber.fcmp x y
    | _, _ => none

end Value

mutual
/-- `impl Hash for Value` (src/main.rs:249-267), modelled as the token stream
fed to the `Hasher`: the tag's discriminant first, then the payload's own
hash input — nothing for `()`, the boolean as a byte, the number's 32-bit
pattern, and for tables the `BTreeMap` hash (length, then each entry's key
and value recursively). String and userdata payloads hit `unimplemented!()`
after the tag is written, modelled as `none`. -/
def Value.hashStream : Value → Option (List Nat)
  | .nil => some [Ty.code .Nil]
  | .boolean b => some [Ty.code .Boolean, cond b 1 0]
  | .num n => some [Ty.code .Number, n.bits]
  | .table t =>
    (TableData.hashStream t).map (fun l => Ty.code .Table :: t.toList.length :: l)
  | _ => none

/-- Hash input of the entries of a table payload, in order. -/
def TableData.hashStream : TableData → Option (List Nat)
  | .nil => some []
  | .cons k v rest => do
    let hk ← Value.hashStream k
    let hv ← Value.hashStream v
    let hr ← TableData.hashStream rest
    pure (hk ++ hv ++ hr)
end

/-- `BTreeMap::get` keyed by `Ord for Value`, modelled as an ordered scan:
each stored key is compared with the query by `Value.cmp`; an undefined
comparison (the `Ord` impl's panic) aborts the lookup (`none`), a hit
returns `some (some v)`, exhaustion returns `some none`. On tables whose
scanned comparisons are all defined this agrees with the B-tree search. -/
def TableData.getEntry : TableData → Value → Option (Option Value)
  | .nil, _ => some none
  | .cons k v rest, key =>
    match Value.cmp key k with
    | none => none
    | some .eq => some (some v)
    | some _ => rest.getEntry key

namespace Value

/-- `Value::get_index` (src/main.rs:150-154):
`LuaTable::from_value(self).and_then(|t| t.get(index).cloned()).unwrap_or_else(Value::nil)`.
The outer `Option` models the panic a key comparison can raise inside
`BTreeMap::get`. -/
def get_index (self index : Value) : Option Value :=
  match self with
  | .table t => (t.getEntry index).map (fun r => r.getD .nil)
  | _ => some .nil

/-- `Value::num_binop` (src/main.rs:175-180): coerce both operands with
`as_number`, apply the float operation, wrap as a number handle. -/
def num_binop (a b : Value) (op : LuaNumber → LuaNumber → LuaNumber) : Value :=
  .num (op a.as_number b.as_number)

/-- `impl Div for &Value` (src/main.rs:236-241): the source passes
`LuaNumber::add` — not `LuaNumber::div` — to `num_binop`. -/
def div (a b : Value) : Value :=
  num_binop a b LuaNumber.add

end Value

/-! The `ConvertValue` impls (src/main.rs:47-102): one erase/recover pair per
bound payload type. `into_value` stores the payload under its tag;
`from_value` checks `type_of() == Self::TYPE` and recovers the payload only
on a match — on this model the tag check is the constructor match. -/

/-- `<() as ConvertValue>::into_value`. -/
def LuaNil.into_value (_ : Unit) : Value := .nil

/-- `<() as ConvertValue>::from_value`. -/
def LuaNil.from_value : Value → Option Unit
  | .nil => some ()
  | _ => none

/-- `<bool as ConvertValue>::into_value`. -/
def LuaBool.into_value (b : Bool) : Value := .boolean b

/-- `<bool as ConvertValue>::from_value`. -/
def LuaBool.from_value : Value → Option Bool
  | .boolean b => some b
  | _ => none

/-- `<f32 as ConvertValue>::into_value`. -/
def LuaNumber.into_value (n : LuaNumber) : Value := .num n

/-- `<f32 as ConvertValue>::from_value`. -/
def LuaNumber.from_value : Value → Option LuaNumber
  | .num n => some n
  | _ => none

/-- `<Box<[u8]> as ConvertValue>::into_value`. -/
def LuaString.into_value (s : List Nat) : Value := .str s

/-- `<Box<[u8]> as ConvertValue>::from_value`. -/
def LuaString.from_value : Value → Option (List Nat)
  | .str s => some s
  | _ => none

/-- `<Box<Any> as ConvertValue>::into_value`. -/
def LuaUserdata.into_value (id : Nat) : Value := .userdata id

/-- `<Box<Any> as ConvertValue>::from_value`. -/
def LuaUserdata.from_value : Value → Option Nat
  | .userdata id => some id
  | _ => none

/-- `<BTreeMap<Value, Value> as ConvertValue>::into_value`. -/
def LuaTable.into_value (t : TableData) : Value := .table t

/-- `<BTreeMap<Value, Value> as ConvertValue>::from_value`. -/
def LuaTable.from_value : Value → Option TableData
  | .table t => some t
  | _ => none

/-! Helper lemmas about `compare` on linear orders and on `WithBot`/`WithTop`,
used to relate the source's comparisons to the ambient order. -/

theorem compare_swap_lin {α : Type} [LinearOrder α] (a b : α) :
    compare b a = (compare a b).swap := by
  rcases lt_trichotomy a b with h | h | h
  · rw [compare_gt_iff_gt.2 h, compare_lt_iff_lt.2 h]; rfl
  · subst h; rw [compare_eq_iff_eq.2 rfl]; rfl
  · rw [compare_lt_iff_lt.2 h, compare_gt_iff_gt.2 h]; rfl

theorem compare_coe_coe_bot {α : Type} [LinearOrder α] (a b : α) :
    compare (a : WithBot α) (b : WithBot α) = compare a b := by
  rcases lt_trichotomy a b with h | h | h
  · rw [compare_lt_iff_lt.2 (WithBot.coe_lt_coe.2 h), compare_lt_iff_lt.2 h]
  · subst h; rw [compare_eq_iff_eq.2 rfl, compare_eq_iff_eq.2 rfl]
  · rw [compare_gt_iff_gt.2 (WithBot.coe_lt_coe.2 h), compare_gt_iff_gt.2 h]

theorem compare_bot_coe {α : Type} [LinearOrder α] (a : α) :
    compare (⊥ : WithBot α) (a : WithBot α) = .lt :=
  compare_lt_iff_lt.2 (WithBot.bot_lt_coe a)

theorem compare_coe_bot {α : Type} [LinearOrder α] (a : α) :
    compare (a : WithBot α) (⊥ : WithBot α) = .gt :=
  compare_gt_iff_gt.2 (WithBot.bot_lt_coe a)

theorem compare_bot_bot {α : Type} [LinearOrder α] :
    compare (⊥ : WithBot α) (⊥ : WithBot α) = .eq :=
  compare_eq_iff_eq.2 rfl

theorem compare_coe_coe_top {α : Type} [LinearOrder α] (a b : α) :
    compare (a : WithTop α) (b : WithTop α) = compare a b := by
  rcases lt_trichotomy a b with h | h | h
  · rw [compare_lt_iff_lt.2 (WithTop.coe_lt_coe.2 h), compare_lt_iff_lt.2 h]
  · subst h; rw [compare_eq_iff_eq.2 rfl, compare_eq_iff_eq.2 rfl]
  · rw [compare_gt_iff_gt.2 (WithTop.coe_lt_coe.2 h), compare_gt_iff_gt.2 h]

theorem compare_coe_top {α : Type} [LinearOrder α] (a : α) :
    compare (a : WithTop α) (⊤ : WithTop α) = .lt :=
  compare_lt_iff_lt.2 (WithTop.coe_lt_top a)

theorem compare_top_coe {α : Type} [LinearOrder α] (a : α) :
    compare (⊤ : WithTop α) (a : WithTop α) = .gt :=
  compare_gt_iff_gt.2 (WithTop.coe_lt_top a)

theorem compare_top_top {α : Type} [LinearOrder α] :
    compare (⊤ : WithTop α) (⊤ : WithTop α) = .eq :=
  compare_eq_iff_eq.2 rfl

/-! Helper lemmas about `LuaNumber.fcmp`. -/

namespace LuaNumber

theorem fcmp_none_iff (x y : LuaNumber) :
    fcmp x y = none ↔ x = .nan ∨ y = .nan := by
  cases x <;> cases y <;> simp [fcmp]

theorem fcmp_toVal (x y : LuaNumber) (hx : x ≠ .nan) (hy : y ≠ .nan) :
    fcmp x y = some (compare x.toVal y.toVal) := by
  cases x with
  | nan => exact absurd rfl hx
  | inf =>
    cases y with
    | nan => exact absurd rfl hy
    | inf => simp only [fcmp, toVal]; rw [compare_coe_coe_bot, compare_top_top]
    | negInf => simp only [fcmp, toVal]; rw [compare_coe_bot]
    | negZero => simp only [fcmp, toVal]; rw [compare_coe_coe_bot, compare_top_coe]
    | fin q => simp only [fcmp, toVal]; rw [compare_coe_coe_bot, compare_top_coe]
  | negInf =>
    cases y with
    | nan => exact absurd rfl hy
    | inf => simp only [fcmp, toVal]; rw [compare_bot_coe]
    | negInf => simp only [fcmp, toVal]; rw [compare_bot_bot]
    | negZero => simp only [fcmp, toVal]; rw [compare_bot_coe]
    | fin q => simp only [fcmp, toVal]; rw [compare_bot_coe]
  | negZero =>
    cases y with
    | nan => exact absurd rfl hy
    | inf => simp only [fcmp, toVal]; rw [compare_coe_coe_bot, compare_coe_top]
    | negInf => simp only [fcmp, toVal]; rw [compare_coe_bot]
    | negZero =>
      simp only [fcmp, toVal]; rw [compare_coe_coe_bot, compare_coe_coe_top]
      exact congrArg some (compare_eq_iff_eq.2 rfl).symm
    | fin q => simp only [fcmp, toVal]; rw [compare_coe_coe_bot, compare_coe_coe_top]
  | fin p =>
    cases y with
    | nan => exact absurd rfl hy
    | inf => simp only [fcmp, toVal]; rw [compare_coe_coe_bot, compare_coe_top]
    | negInf => simp only [fcmp, toVal]; rw [compare_coe_bot]
    | negZero => simp only [fcmp, toVal]; rw [compare_coe_coe_bot, compare_coe_coe_top]
    | fin q => simp only [fcmp, toVal]; rw [compare_coe_coe_bot, compare_coe_coe_top]

theorem fcmp_eq_iff (x y : LuaNumber) :
    fcmp x y = some .eq ↔ ieeeEq x y = true := by
  cases x <;> cases y <;>
    simp [fcmp, ieeeEq, compare_eq_iff_eq, eq_comm] <;>
    (rw [eq_comm, compare_eq_iff_eq]; try first | exact eq_comm | rfl)

theorem fcmp_swap (x y : LuaNumber) :
    fcmp y x = (fcmp x y).map Ordering.swap := by
  cases x <;> cases y <;>
    first
    | rfl
    | (simp only [fcmp]; rw [compare_swap_lin]; rfl)

end LuaNumber

/-! Helper lemmas unfolding `Value.cmp` and `Value.beq` by constructor. -/

namespace Value

theorem cmp_ne_tags {a b : Value} (h : a.type_of ≠ b.type_of) :
    cmp a b = some (compare a.type_of b.type_of) := by
  unfold cmp; rw [if_pos h]

theorem beq_ne_tags {a b : Value} (h : a.type_of ≠ b.type_of) :
    beq a b = some false := by
  unfold beq; rw [if_pos h]

theorem cmp_nil_nil : cmp .nil .nil = some .eq := rfl

theorem cmp_boolean_boolean (p q : Bool) :
    cmp (.boolean p) (.boolean q) = some (compare p q) := by
  simp [cmp, type_of]

theorem cmp_num_num (x y : LuaNumber) :
    cmp (.num x) (.num y) = LuaNumber.fcmp x y := by
  simp [cmp, type_of]

theorem cmp_str_str (s t : List Nat) : cmp (.str s) (.str t) = none := by
  simp [cmp, type_of]

theorem cmp_userdata_userdata (i j : Nat) :
    cmp (.userdata i) (.userdata j) = none := by
  simp [cmp, type_of]

theorem cmp_table_table (t u : TableData) :
    cmp (.table t) (.table u) = none := by
  simp [cmp, type_of]

theorem beq_nil_nil : beq .nil .nil = some true := rfl

theorem beq_boolean_boolean (p q : Bool) :
    beq (.boolean p) (.boolean q) = some (p == q) := by
  simp [beq, type_of]

theorem beq_num_num (x y : LuaNumber) :
    beq (.num x) (.num y) = some (LuaNumber.ieeeEq x y) := by
  simp [beq, type_of]

theorem beq_str_str (s t : List Nat) : beq (.str s) (.str t) = none := by
  simp [beq, type_of]

theorem beq_userdata_userdata (i j : Nat) :
    beq (.userdata i) (.userdata j) = none := by
  simp [beq, type_of]

theorem beq_table_table (t u : TableData) :
    beq (.table t) (.table u) = none := by
  simp [beq, type_of]

end Value

/-! Helper lemmas about the derived tag order. -/

theorem ty_compare_code (s t : Ty) : compare s t = compare s.code t.code := by
  cases s <;> cases t <;> decide

theorem ty_compare_ne_eq {s t : Ty} (h : s ≠ t) : compare s t ≠ .eq := by
  cases s <;> cases t <;> first | exact absurd rfl h | decide

theorem ty_compare_swap (s t : Ty) : compare t s = (compare s t).swap := by
  cases s <;> cases t <;> decide

/-- Order and equality agree wherever either returns: a comparison yields
`Equal` exactly when the equality test yields `true` (both `none` on the
same-tag pairs whose payload operations are unimplemented). -/
theorem cmp_consistent (a b : Value) :
    Value.cmp a b = some .eq ↔ Value.beq a b = some true := by
  by_cases h : a.type_of = b.type_of
  · cases a <;> cases b <;> (try (simp [Value.type_of] at h)) <;>
      first
      | simp [Value.cmp_nil_nil, Value.beq_nil_nil]
      | (rw [Value.cmp_boolean_boolean, Value.beq_boolean_boolean]
         simp [compare_eq_iff_eq])
      | (rw [Value.cmp_num_num, Value.beq_num_num]
         simp [LuaNumber.fcmp_eq_iff])
      | simp [Value.cmp_str_str, Value.beq_str_str]
      | simp [Value.cmp_userdata_userdata, Value.beq_userdata_userdata]
      | simp [Value.cmp_table_table, Value.beq_table_table]
  · rw [Value.cmp_ne_tags h, Value.beq_ne_tags h]
    simp [ty_compare_ne_eq h]

/-- The comparison is antisymmetric wherever it returns: swapping the
arguments swaps the verdict. -/
theorem valueCmp_swap (a b : Value) :
    Value.cmp b a = (Value.cmp a b).map Ordering.swap := by
  by_cases h : a.type_of = b.type_of
  · cases a <;> cases b <;> (try (simp [Value.type_of] at h)) <;>
      first
      | rfl
      | (rw [Value.cmp_boolean_boolean, Value.cmp_boolean_boolean,
            compare_swap_lin]; rfl)
      | (rw [Value.cmp_num_num, Value.cmp_num_num]
         exact LuaNumber.fcmp_swap _ _)
  · rw [Value.cmp_ne_tags h, Value.cmp_ne_tags (Ne.symm h), ty_compare_swap]
    rfl

/-- A table scan with every performed comparison defined agrees with the
list library's own search for a key comparing `Equal`. -/
theorem getEntry_of_defined : (t : TableData) → (k : Value) →
    (∀ p ∈ t.toList, (Value.cmp k p.1).isSome) →
    t.getEntry k =
      some ((t.toList.find? (fun p => Value.cmp k p.1 == some .eq)).map Prod.snd)
  | .nil, _, _ => rfl
  | .cons k' v rest, k, h => by
    have hk : (Value.cmp k k').isSome := h (k', v) (by simp [TableData.toList])
    have hrest : ∀ p ∈ rest.toList, (Value.cmp k p.1).isSome := by
      intro p hp
      exact h p (by simp [TableData.toList, hp])
    obtain ⟨o, ho⟩ := Option.isSome_iff_exists.1 hk
    cases o with
    | eq =>
      simp only [TableData.getEntry, ho, TableData.toList]
      rw [List.find?_cons_of_pos]
      · rfl
      · simp [ho]; decide
    | lt =>
      simp only [TableData.getEntry, ho, TableData.toList]
      rw [List.find?_cons_of_neg]
      · exact getEntry_of_defined rest k hrest
      · simp [ho]; decide
    | gt =>
      simp only [TableData.getEntry, ho, TableData.toList]
      rw [List.find?_cons_of_neg]
      · exact getEntry_of_defined rest k hrest
      · simp [ho]; decide

/-! The claims. -/

/-- C1: the claim says `is_index` is false for the nil tag, false for a
number-tagged handle exactly when the payload is NaN, and true otherwise.
The code's number arm is `payload == NAN`, an IEEE comparison that is false
for every payload (NaN included), so every number-tagged handle is rejected:
on the payload `1.0` the code returns `false` where the claim requires
`true` (the nil and non-number arms do match the claim). -/
theorem claim_c1_code_eval :
    Value.is_index (.num (.fin 1)) = false ∧
    Value.is_index (.num .nan) = false ∧
    (∀ n : LuaNumber, Value.is_index (.num n) = false) ∧
    Value.is_index .nil = false ∧
    (∀ b : Bool, Value.is_index (.boolean b) = true) ∧
    (∀ s : List Nat, Value.is_index (.str s) = true) := by
  refine ⟨rfl, rfl, ?_, rfl, fun b => rfl, fun s => rfl⟩
  intro n
  cases n <;> rfl

/-- C3 as stated is false on the code: two byte-wise equal string handles do
not compare equal — the string arm of `PartialEq` is `unimplemented!()`
(a panic, modelled `none`), not byte-wise equality. -/
theorem claim_c3_counterexample :
    Value.beq (.str [97]) (.str [97]) ≠ some true := by decide

/-- C3 amended: tags differ → unequal; nil handles equal; booleans by boolean
equality; numbers by IEEE equality (NaN unequal to itself, every non-NaN
payload equal to itself); equality on same-tag string, userdata and table
handles is unimplemented and panics instead of comparing payloads. -/
theorem claim_c3_amended :
    (∀ a b : Value, a.type_of ≠ b.type_of → Value.beq a b = some false) ∧
    Value.beq .nil .nil = some true ∧
    (∀ p q : Bool, Value.beq (.boolean p) (.boolean q) = some (p == q)) ∧
    (∀ x y : LuaNumber, Value.beq (.num x) (.num y) = some (LuaNumber.ieeeEq x y)) ∧
    (∀ x : LuaNumber, x ≠ .nan → LuaNumber.ieeeEq x x = true) ∧
    LuaNumber.ieeeEq .nan .nan = false ∧
    (∀ s t : List Nat, Value.beq (.str s) (.str t) = none) ∧
    (∀ i j : Nat, Value.beq (.userdata i) (.userdata j) = none) ∧
    (∀ t u : TableData, Value.beq (.table t) (.table u) = none) := by
  refine ⟨fun a b h => Value.beq_ne_tags h, Value.beq_nil_nil,
    Value.beq_boolean_boolean, Value.beq_num_num, ?_, rfl,
    Value.beq_str_str, Value.beq_userdata_userdata, Value.beq_table_table⟩
  intro x hx
  cases x with
  | nan => exact absurd rfl hx
  | inf => rfl
  | negInf => rfl
  | negZero => rfl
  | fin q => simp [LuaNumber.ieeeEq]

/-- Witness for C3's amended claim at concrete inputs. -/
theorem claim_c3_witness :
    Value.beq .nil (.boolean true) = some false ∧
    LuaNumber.ieeeEq (.fin 5) (.fin 5) = true :=
  ⟨claim_c3_amended.1 .nil (.boolean true) (by decide),
   claim_c3_amended.2.2.2.2.1 (.fin 5) (by decide)⟩

/-- C4: the claim (equal handles hash identically) fails on the code at the
two zeros: `0.0 == -0.0` holds under IEEE equality, but the hash feeds the
raw bit pattern of the float to the hasher and the two zeros' patterns
(`0x00000000` vs `0x80000000`) differ. -/
theorem claim_c4_code_eval :
    Value.beq (.num (.fin 0)) (.num .negZero) = some true ∧
    Value.hashStream (.num (.fin 0)) ≠ Value.hashStream (.num .negZero) :=
  ⟨by decide, by decide⟩

/-- C5: the claim (÷ computes the floating-point quotient) fails on the code:
`impl Div for &Value` passes `LuaNumber::add` to `num_binop`, so `6.0 ÷ 3.0`
evaluates to the sum `9.0`, not the quotient `2.0` the claim requires. -/
theorem claim_c5_code_eval :
    Value.div (.num (.fin 6)) (.num (.fin 3)) = .num (.fin 9) ∧
    LuaNumber.fdiv (Value.num (.fin 6)).as_number (Value.num (.fin 3)).as_number
      = .fin 2 := by
  constructor
  · norm_num [Value.div, Value.num_binop, Value.as_number, LuaNumber.add]
  · norm_num [Value.as_number, LuaNumber.fdiv]

/-- C7: `as_number` returns the number payload directly; parses a string
payload, defaulting to NaN on parse failure; and coerces every other tag to
NaN — with the spec's concrete instances `"42" ↦ 42` and `"abc" ↦ NaN`. -/
theorem claim_c7 :
    (∀ n : LuaNumber, (Value.num n).as_number = n) ∧
    (∀ s : List Nat, (Value.str s).as_number = (parseLuaNumber s).getD .nan) ∧
    (∀ v : Value, v.type_of ≠ .Number → v.type_of ≠ .String → v.as_number = .nan) ∧
    (Value.str [52, 50]).as_number = .fin 42 ∧
    (Value.str [97, 98, 99]).as_number = .nan := by
  refine ⟨fun n => rfl, fun s => rfl, ?_, ?_, by decide⟩
  · intro v h1 h2
    cases v <;> first | rfl | exact absurd rfl h1 | exact absurd rfl h2
  · norm_num [Value.as_number, parseLuaNumber, readSign, readSignificand,
      readExponent, isDigit, digitsToNat, asciiLower, List.takeWhile,
      List.dropWhile, List.foldl]

/-- Witness for C7 at a concrete non-number, non-string handle. -/
theorem claim_c7_witness :
    (Value.boolean true).as_number = .nan :=
  claim_c7.2.2.1 (.boolean true) (by decide) (by decide)

/-- C8: for each bound payload type, recovery after erasure returns the
original payload, the erased handle carries that type's tag, and recovery
at any other tag returns `none`. -/
theorem claim_c8 :
    (∀ x : Unit, LuaNil.from_value (LuaNil.into_value x) = some x ∧
      (LuaNil.into_value x).type_of = .Nil) ∧
    (∀ v : Value, v.type_of ≠ .Nil → LuaNil.from_value v = none) ∧
    (∀ x : Bool, LuaBool.from_value (LuaBool.into_value x) = some x ∧
      (LuaBool.into_value x).type_of = .Boolean) ∧
    (∀ v : Value, v.type_of ≠ .Boolean → LuaBool.from_value v = none) ∧
    (∀ x : LuaNumber, LuaNumber.from_value (LuaNumber.into_value x) = some x ∧
      (LuaNumber.into_value x).type_of = .Number) ∧
    (∀ v : Value, v.type_of ≠ .Number → LuaNumber.from_value v = none) ∧
    (∀ x : List Nat, LuaString.from_value (LuaString.into_value x) = some x ∧
      (LuaString.into_value x).type_of = .String) ∧
    (∀ v : Value, v.type_of ≠ .String → LuaString.from_value v = none) ∧
    (∀ x : Nat, LuaUserdata.from_value (LuaUserdata.into_value x) = some x ∧
      (LuaUserdata.into_value x).type_of = .Userdata) ∧
    (∀ v : Value, v.type_of ≠ .Userdata → LuaUserdata.from_value v = none) ∧
    (∀ x : TableData, LuaTable.from_value (LuaTable.into_value x) = some x ∧
      (LuaTable.into_value x).type_of = .Table) ∧
    (∀ v : Value, v.type_of ≠ .Table → LuaTable.from_value v = none) := by
  refine ⟨fun x => ⟨rfl, rfl⟩, ?_, fun x => ⟨rfl, rfl⟩, ?_, fun x => ⟨rfl, rfl⟩, ?_,
    fun x => ⟨rfl, rfl⟩, ?_, fun x => ⟨rfl, rfl⟩, ?_, fun x => ⟨rfl, rfl⟩, ?_⟩ <;>
    (intro v h; cases v <;> first | rfl | exact absurd rfl h)

/-- Witness for C8's mismatch cases at concrete handles. -/
theorem claim_c8_witness :
    LuaNil.from_value (.num (.fin 0)) = none ∧
    LuaBool.from_value .nil = none :=
  ⟨claim_c8.2.1 (.num (.fin 0)) (by decide), claim_c8.2.2.2.1 .nil (by decide)⟩

/-- C9: `to_bool` is false exactly on the nil handle and the boolean-false
handle; in particular the number zero and the empty string are truthy. -/
theorem claim_c9 :
    (∀ v : Value, v.to_bool = false ↔ v = .nil ∨ v = .boolean false) ∧
    (Value.num (.fin 0)).to_bool = true ∧
    (Value.str []).to_bool = true := by
  refine ⟨?_, rfl, rfl⟩
  intro v
  cases v <;> simp [Value.to_bool]

/-- C2: the comparison orders primarily by the tag in declaration order
(the derived tag order is the order of declaration indices), secondarily —
when tags match — by the payload's own order (booleans by `false < true`,
finite numbers by numeric order); it is antisymmetric wherever it returns,
and it is consistent with equality: a pair compares `Equal` exactly when the
equality test returns `true`. -/
theorem claim_c2 :
    (∀ s t : Ty, compare s t = compare s.code t.code) ∧
    (∀ a b : Value, a.type_of ≠ b.type_of →
      Value.cmp a b = some (compare a.type_of b.type_of)) ∧
    (∀ p q : Bool, Value.cmp (.boolean p) (.boolean q) = some (compare p q)) ∧
    (∀ a b : ℚ, Value.cmp (.num (.fin a)) (.num (.fin b)) = some (compare a b)) ∧
    (∀ a b : Value, Value.cmp a b = some .eq ↔ Value.beq a b = some true) ∧
    (∀ a b : Value, Value.cmp b a = (Value.cmp a b).map Ordering.swap) := by
  refine ⟨ty_compare_code, fun a b h => Value.cmp_ne_tags h,
    Value.cmp_boolean_boolean, ?_, cmp_consistent, valueCmp_swap⟩
  intro a b
  rw [Value.cmp_num_num]
  rfl

/-- Witness for C2's tag-mismatch conjunct at concrete handles. -/
theorem claim_c2_witness :
    Value.cmp .nil (.boolean false)
      = some (compare Value.nil.type_of (Value.boolean false).type_of) :=
  claim_c2.2.1 .nil (.boolean false) (by decide)

/-- C6 as stated is false on the code: looking up a NaN-number key (a key
absent from every table) in a table holding a number key panics inside the
stored-key comparison (`partial_cmp(..).expect`) instead of returning nil. -/
theorem claim_c6_counterexample :
    (Value.table (.cons (.num (.fin 1)) (.boolean true) .nil)).get_index (.num .nan)
      ≠ some Value.nil := by decide

/-- C6 amended: `get_index` returns nil on every non-table handle, and on a
table it returns the value stored under the first key comparing `Equal` (nil
when none does) — provided every key comparison the lookup performs is
defined; when a comparison is undefined (a NaN-number key against a number
key, or an unimplemented-tag comparison) the lookup panics instead. -/
theorem claim_c6_amended :
    (∀ h k : Value, h.type_of ≠ .Table → h.get_index k = some .nil) ∧
    (∀ t : TableData, ∀ k : Value,
      (∀ p ∈ t.toList, (Value.cmp k p.1).isSome) →
      (Value.table t).get_index k =
        some (((t.toList.find? (fun p => Value.cmp k p.1 == some .eq)).map
          Prod.snd).getD .nil)) := by
  constructor
  · intro h k hty
    cases h <;> first | rfl | exact absurd rfl hty
  · intro t k hdef
    simp only [Value.get_index]
    rw [getEntry_of_defined t k hdef]
    rfl

/-- Witness for C6's amended claim: a present key (defined comparisons) and a
non-table handle. -/
theorem claim_c6_witness :
    (Value.table (.cons (.boolean true) (.num (.fin 5)) .nil)).get_index
      (.boolean true) = some (.num (.fin 5)) ∧
    Value.get_index (.boolean false) .nil = some .nil :=
  ⟨(claim_c6_amended.2 (.cons (.boolean true) (.num (.fin 5)) .nil) (.boolean true)
      (by decide)).trans (by decide),
   claim_c6_amended.1 (.boolean false) .nil (by decide)⟩

/-- C10: comparing two number-tagged handles fails (panics) exactly when a
payload is NaN, and otherwise returns the standard numeric order — the order
of the payloads' semantic values in `WithBot (WithTop ℚ)`. -/
theorem claim_c10 (x y : LuaNumber) :
    (Value.cmp (.num x) (.num y) = none ↔ x = .nan ∨ y = .nan) ∧
    (x ≠ .nan → y ≠ .nan →
      Value.cmp (.num x) (.num y) = some (compare x.toVal y.toVal)) := by
  constructor
  · rw [Value.cmp_num_num]
    exact LuaNumber.fcmp_none_iff x y
  · intro hx hy
    rw [Value.cmp_num_num]
    exact LuaNumber.fcmp_toVal x y hx hy

/-- Witness for C10 at concrete payloads: `1.0 < 2.0`, and a NaN panics. -/
theorem claim_c10_witness :
    Value.cmp (.num (.fin 1)) (.num (.fin 2)) = some .lt ∧
    Value.cmp (.num .nan) (.num (.fin 2)) = none :=
  ⟨((claim_c10 (.fin 1) (.fin 2)).2 (by decide) (by decide)).trans
      (congrArg some (by
        rw [show (LuaNumber.fin 1).toVal
              = (((1 : ℚ) : WithTop ℚ) : WithBot (WithTop ℚ)) from rfl,
          show (LuaNumber.fin 2).toVal
              = (((2 : ℚ) : WithTop ℚ) : WithBot (WithTop ℚ)) from rfl,
          compare_coe_coe_bot, compare_coe_coe_top]
        exact compare_lt_iff_lt.2 (by norm_num))),
   (claim_c10 .nan (.fin 2)).1.mpr (Or.inl rfl)⟩
